import Mathlib

/-!
Verification development for the Taskify task-management application.

The development shallowly embeds the JavaScript utility functions of
frontend/src/utils/helpers.js and frontend/src/utils/constants.js, the
mongoose Task model (schema middleware, instance and static methods), the
Express task controller and routers, and the axios client interceptor.

Modelling conventions:
  - JavaScript timestamps (Date values) are integers in milliseconds.
  - A field that may be undefined or null is an Option.
  - JavaScript strings are Lean Strings; toLowerCase, trim and includes are
    modelled character-wise on the underlying character list (the source
    data is ASCII for every value these claims touch).
  - Floating point arithmetic appears only in Math.round((completed/total)*100);
    it is modelled by exact rational rounding, half away from zero.
-/

namespace Taskify

/-- Subdocument of the subTasks array of the Task schema (models/Task.js):
a title, an isDone flag defaulting to false and a createdAt date defaulting
to Date.now. -/
structure SubTask where
  title : String
  isDone : Bool
  createdAt : Int
deriving DecidableEq

/-- Document of the Task schema (models/Task.js) as the frontend receives it.
The _id and userId ObjectIds are modelled as naturals. title and description
are Options because the frontend helpers access them with optional chaining;
tags likewise. completedAt and dueDate are nullable dates. -/
structure Task where
  id : Nat
  userId : Nat
  title : Option String
  description : Option String
  category : String
  priority : String
  isDone : Bool
  dueDate : Option Int
  completedAt : Option Int
  tags : Option (List String)
  subTasks : List SubTask
  createdAt : Int
  updatedAt : Int
deriving DecidableEq

/-- Model of String.prototype.toLowerCase, character by character. -/
def jsToLower (s : String) : String :=
  String.mk (s.data.map Char.toLower)

/-- Model of String.prototype.trim: drop whitespace from both ends. -/
def jsTrim (s : String) : String :=
  String.mk (((s.data.dropWhile Char.isWhitespace).reverse.dropWhile
    Char.isWhitespace).reverse)

/-- Helper for strIncludes: does the needle occur in the haystack list. -/
def includesAux (needle : List Char) : List Char → Bool
  | [] => needle.isEmpty
  | c :: rest => needle.isPrefixOf (c :: rest) || includesAux needle rest

/-- Model of JavaScript hay.includes(needle) on strings. -/
def strIncludes (hay needle : String) : Bool :=
  includesAux needle.data hay.data

/-- Truthiness of an optional string: undefined and the empty string are
falsy, every other string is truthy. -/
def truthy : Option String → Bool
  | none => false
  | some s => !(s == "")

/-- Entry of the TASK_CATEGORIES constant (utils/constants.js). -/
structure CategoryInfo where
  value : String
  label : String
  icon : String
  color : String
deriving DecidableEq

/-- TASK_CATEGORIES from utils/constants.js, in source order. -/
def TASK_CATEGORIES : List CategoryInfo := [
  ⟨"work", "Work", "💼", "blue"⟩,
  ⟨"personal", "Personal", "👤", "purple"⟩,
  ⟨"health", "Health", "🏥", "green"⟩,
  ⟨"finance", "Finance", "💰", "yellow"⟩,
  ⟨"shopping", "Shopping", "🛒", "pink"⟩,
  ⟨"education", "Education", "📚", "lime"⟩,
  ⟨"other", "Other", "📝", "gray"⟩]

/-- Entry of the TASK_PRIORITIES constant (utils/constants.js). -/
structure PriorityInfo where
  value : String
  label : String
  color : String
  icon : String
deriving DecidableEq

/-- TASK_PRIORITIES from utils/constants.js, in source order. -/
def TASK_PRIORITIES : List PriorityInfo := [
  ⟨"low", "Low", "green", "🟢"⟩,
  ⟨"medium", "Medium", "yellow", "🟡"⟩,
  ⟨"high", "High", "red", "🔴"⟩,
  ⟨"urgent", "Urgent", "pink", "🚨"⟩]

/-- getCategoryInfo (helpers.js 69-71): find the entry whose value equals the
category, defaulting to TASK_CATEGORIES[6], the "other" entry. -/
def getCategoryInfo (category : String) : CategoryInfo :=
  (TASK_CATEGORIES.find? (fun cat => cat.value == category)).getD
    (TASK_CATEGORIES.get ⟨6, by decide⟩)

/-- getPriorityInfo (helpers.js 84-86): find the entry whose value equals the
priority, defaulting to TASK_PRIORITIES[1], the "medium" entry. -/
def getPriorityInfo (priority : String) : PriorityInfo :=
  (TASK_PRIORITIES.find? (fun p => p.value == priority)).getD
    (TASK_PRIORITIES.get ⟨1, by decide⟩)

/-- Lookup of the own properties of the object literal of getPriorityValue
(helpers.js 99-102): low 1, medium 2, high 3, urgent 4, undefined
otherwise. This restriction ignores the prototype chain, which is exact on
every priority the Task schema admits (the enum low/medium/high/urgent);
the prototype-faithful lookup is priorityLookupJs below. -/
def priorityRank (priority : String) : Option Int :=
  if priority = "low" then some 1
  else if priority = "medium" then some 2
  else if priority = "high" then some 3
  else if priority = "urgent" then some 4
  else none

/-- getPriorityValue (helpers.js 99-102) restricted to keys that do not hit
the prototype chain: the own rank from the object literal, with the
JavaScript or-default 2 (every rank in the literal is nonzero, so on this
domain the or-default fires exactly on undefined). On a key inherited from
Object.prototype the source behaves differently: see getPriorityValueJs. -/
def getPriorityValue (priority : String) : Int :=
  (priorityRank priority).getD 2

/-- Own property names of Object.prototype: a bare object literal inherits
each of these, so looking one of them up yields a truthy function or
object, not undefined. -/
def objectPrototypeProps : List String :=
  ["constructor", "hasOwnProperty", "isPrototypeOf", "propertyIsEnumerable",
   "toLocaleString", "toString", "valueOf", "__proto__", "__defineGetter__",
   "__defineSetter__", "__lookupGetter__", "__lookupSetter__"]

/-- Result of the JavaScript lookup priorities[priority] on the object
literal of getPriorityValue, prototype chain included: an own numeric rank,
a truthy value inherited from Object.prototype, or undefined. -/
inductive PriorityLookup where
  | ownRank (n : Int)
  | inheritedProp
  | undef
deriving DecidableEq

/-- The lookup priorities[priority] with the prototype chain: the four own
ranks first, then the properties inherited from Object.prototype, then
undefined. -/
def priorityLookupJs (priority : String) : PriorityLookup :=
  if priority = "low" then PriorityLookup.ownRank 1
  else if priority = "medium" then PriorityLookup.ownRank 2
  else if priority = "high" then PriorityLookup.ownRank 3
  else if priority = "urgent" then PriorityLookup.ownRank 4
  else if priority ∈ objectPrototypeProps then PriorityLookup.inheritedProp
  else PriorityLookup.undef

/-- Value of getPriorityValue under the prototype-faithful lookup: a number
(an own rank, or 2 when the lookup was undefined), or the truthy value
inherited from Object.prototype, on which the or-default does not fire. -/
inductive PriorityValueResult where
  | num (n : Int)
  | inheritedProp
deriving DecidableEq

/-- getPriorityValue (helpers.js 99-102), prototype chain included:
priorities[priority] || 2 returns the own rank when present (all four are
nonzero, hence truthy), the truthy inherited value for an Object.prototype
key, and 2 only when the lookup is undefined. -/
def getPriorityValueJs (priority : String) : PriorityValueResult :=
  match priorityLookupJs priority with
  | PriorityLookup.ownRank n => PriorityValueResult.num n
  | PriorityLookup.inheritedProp => PriorityValueResult.inheritedProp
  | PriorityLookup.undef => PriorityValueResult.num 2

/-- isOverdue (helpers.js 52-55): false for a missing due date, otherwise a
strict comparison of the due date with the current time. -/
def isOverdue (dueDate : Option Int) (now : Int) : Bool :=
  match dueDate with
  | none => false
  | some d => decide (d < now)

/-- Statistics object returned by getTaskStats (helpers.js 105-120). -/
structure TaskStats where
  total : Nat
  completed : Nat
  pending : Nat
  overdue : Nat
  completionRate : Nat
deriving DecidableEq

/-- getTaskStats (helpers.js 105-120). The current time is an explicit
parameter because isOverdue reads the clock. Math.round of the nonnegative
ratio is modelled as exact rational rounding, half up: round(100*c/t) =
(200*c+t)/(2*t) in integer division. The source computes the ratio in IEEE
doubles, which can land on the other side of a tie (23 of 40 gives
Math.round(57.49999999999999) = 57 in JavaScript, 58 here); the properties
proved below (bounds, partition, clock independence of every field except
overdue) hold under either rounding. -/
def getTaskStats (tasks : List Task) (now : Int) : TaskStats :=
  let total := tasks.length
  let completed := (tasks.filter (fun task => task.isDone)).length
  let pending := total - completed
  let overdue := (tasks.filter
    (fun task => !task.isDone && isOverdue task.dueDate now)).length
  let completionRate := if total > 0 then (200 * completed + total) / (2 * total) else 0
  ⟨total, completed, pending, overdue, completionRate⟩

/-- Filter object accepted by filterTasks (helpers.js 172-206); every field
may be absent. -/
structure Filters where
  status : Option String
  category : Option String
  priority : Option String
  search : Option String
deriving DecidableEq

/-- Status block of the filterTasks predicate (helpers.js 174-178): when the
status filter is truthy and not "all", reject a done task under "pending"
and a not-done task under "completed". -/
def statusCheck (filters : Filters) (task : Task) : Bool :=
  if truthy filters.status && !(filters.status == some "all") then
    if filters.status == some "pending" && task.isDone then false
    else if filters.status == some "completed" && !task.isDone then false
    else true
  else true

/-- Category block of the filterTasks predicate (helpers.js 180-183): when
the category filter is truthy and not "all", reject a task of a different
category. -/
def categoryCheck (filters : Filters) (task : Task) : Bool :=
  if truthy filters.category && !(filters.category == some "all") then
    filters.category == some task.category
  else true

/-- Priority block of the filterTasks predicate (helpers.js 185-188). -/
def priorityCheck (filters : Filters) (task : Task) : Bool :=
  if truthy filters.priority && !(filters.priority == some "all") then
    filters.priority == some task.priority
  else true

/-- Search block of the filterTasks predicate (helpers.js 190-202): with a
truthy search string, reject the task when the lowercased term occurs in
none of lowercased title, description and space-joined tags. -/
def searchCheck (filters : Filters) (task : Task) : Bool :=
  match filters.search with
  | none => true
  | some s =>
    if s == "" then true
    else
      let searchTerm := jsToLower s
      let title := jsToLower (task.title.getD "")
      let description := jsToLower (task.description.getD "")
      let tags := jsToLower (String.intercalate " " (task.tags.getD []))
      !(!strIncludes title searchTerm && !strIncludes description searchTerm &&
        !strIncludes tags searchTerm)

/-- Whole predicate of the callback in filterTasks (helpers.js 173-204): the
four guard blocks in sequence, each able to return false. -/
def taskMatchesFilters (filters : Filters) (task : Task) : Bool :=
  statusCheck filters task && categoryCheck filters task &&
  priorityCheck filters task && searchCheck filters task

/-- filterTasks (helpers.js 172-206): Array.prototype.filter with the
predicate above. -/
def filterTasks (tasks : List Task) (filters : Filters) : List Task :=
  tasks.filter (fun task => taskMatchesFilters filters task)

/-- Comparison value produced inside the comparator of sortTasks
(helpers.js 144-170): a number (ranks and dates), a string (titles and
categories), or undefined for a sortBy outside the six sort options, where
the raw a[sortBy] access of the source yields no modelled field. -/
inductive JsVal where
  | num (n : Int)
  | str (s : String)
  | undef
deriving DecidableEq

/-- JavaScript strict less-than between two comparison values: numeric on
numbers, lexicographic on strings, false on undefined and on mixed
operands. -/
def jsLt : JsVal → JsVal → Bool
  | JsVal.num a, JsVal.num b => decide (a < b)
  | JsVal.str a, JsVal.str b => decide (a < b)
  | _, _ => false

/-- Constructor tag of a comparison value; the comparator of sortTasks only
ever compares values of one tag because the key of each sortBy has a fixed
shape. -/
def JsVal.kind : JsVal → Nat
  | JsVal.num _ => 0
  | JsVal.str _ => 1
  | JsVal.undef => 2

/-- Timestamp of new Date("9999-12-31"), the sentinel sortTasks uses for a
missing due date. -/
def farFutureMs : Int := 253402214400000

/-- Key extraction of the comparator of sortTasks (helpers.js 146-162):
priority maps through getPriorityValue, title lowercases with empty-string
default, dueDate defaults to the far-future sentinel, createdAt and
updatedAt are dates, and any other sortBy (category among them) reads the
raw field. -/
def keyOf (sortBy : String) (t : Task) : JsVal :=
  if sortBy == "priority" then JsVal.num (getPriorityValue t.priority)
  else if sortBy == "title" then JsVal.str (jsToLower (t.title.getD ""))
  else if sortBy == "dueDate" then
    JsVal.num (match t.dueDate with | some d => d | none => farFutureMs)
  else if sortBy == "createdAt" then JsVal.num t.createdAt
  else if sortBy == "updatedAt" then JsVal.num t.updatedAt
  else if sortBy == "category" then JsVal.str t.category
  else JsVal.undef

/-- Comparator of sortTasks (helpers.js 145-167): -1/1 by the direction when
the keys compare strictly, 0 otherwise; any sortOrder other than "asc" acts
as descending. -/
def taskCmp (sortBy sortOrder : String) (a b : Task) : Int :=
  let aValue := keyOf sortBy a
  let bValue := keyOf sortBy b
  if jsLt aValue bValue then (if sortOrder == "asc" then -1 else 1)
  else if jsLt bValue aValue then (if sortOrder == "asc" then 1 else -1)
  else 0

/-- sortTasks (helpers.js 144-170): a stable comparator sort of a copy of
the list (Array.prototype.sort on the spread copy [...tasks]), modelled by
insertion sort on the relation comparator-at-most-zero. -/
def sortTasks (tasks : List Task) (sortBy sortOrder : String) : List Task :=
  tasks.insertionSort (fun a b => taskCmp sortBy sortOrder a b ≤ 0)

/-- Non-strict comparison between two comparison values, the order the
sorted output follows: x at most y when y is not strictly below x. -/
def jsLe (x y : JsVal) : Bool := !jsLt y x

/-- Order the output of sortTasks is sorted by: consecutive keys ascend
under sortOrder "asc" and descend otherwise. -/
def sortedByKey (sortBy sortOrder : String) (a b : Task) : Prop :=
  if sortOrder = "asc" then jsLe (keyOf sortBy a) (keyOf sortBy b) = true
  else jsLe (keyOf sortBy b) (keyOf sortBy a) = true

/-! Backend model: the task router (routes/tasks.js), the task controller
(controllers/taskController.js) and the Task model statics and methods
(models/Task.js). The database is a list of Task documents; MongoDB
guarantees _id is unique, which theorems take as a Nodup hypothesis where
it matters. -/

/-- Response of a controller action, reduced to what the claims observe:
the 404 Task-not-found branch, a 200/201 with a task document, a 400 with a
message, or the 200 of a deletion. -/
inductive TaskResp where
  | notFound
  | okTask (task : Task)
  | badRequest (msg : String)
  | deleted
deriving DecidableEq

/-- Task.findOne({ _id, userId }) as the controller calls it: the first
document matching both the id and the requesting user. -/
def findOwnedTask (db : List Task) (uid tid : Nat) : Option Task :=
  db.find? (fun t => t.id == tid && t.userId == uid)

/-- Pre-save middleware of the Task schema (models/Task.js 464-473): when
the isDone path is modified, stamp completedAt on completion if it is not
already set, and clear it when the task is not done. Mongoose marks a path
modified only when the assigned value differs, so the old value of isDone
is the reference. -/
def applyPreSaveHook (old new : Task) (now : Int) : Task :=
  if new.isDone != old.isDone then
    if new.isDone && (new.completedAt == none) then { new with completedAt := some now }
    else if !new.isDone then { new with completedAt := none }
    else new
  else new

/-- Document save: run the pre-save middleware, then write the document back
into the collection at its _id. Returns the new collection and the saved
document. -/
def saveTaskDoc (db : List Task) (old new : Task) (now : Int) : List Task × Task :=
  let saved := applyPreSaveHook old new now
  (db.map (fun t => if t.id == saved.id then saved else t), saved)

/-- getTask (taskController.js 165-192): findOne by id and user, 404 when
absent, otherwise the document. -/
def getTask (db : List Task) (uid tid : Nat) : TaskResp :=
  match findOwnedTask db uid tid with
  | none => TaskResp.notFound
  | some task => TaskResp.okTask task

/-- Body of a PATCH /tasks/:id request: each updatable field is present or
absent; a present dueDate may itself be null. -/
structure UpdateBody where
  title : Option String
  description : Option String
  category : Option String
  priority : Option String
  isDone : Option Bool
  dueDate : Option (Option Int)
  tags : Option (List String)
deriving DecidableEq

/-- Field loop of updateTask (taskController.js 265-270): every defined body
field overwrites the document field. -/
def applyUpdateFields (task : Task) (body : UpdateBody) : Task :=
  { task with
    title := match body.title with | some v => some v | none => task.title
    description := match body.description with | some v => some v | none => task.description
    category := body.category.getD task.category
    priority := body.priority.getD task.priority
    isDone := body.isDone.getD task.isDone
    dueDate := body.dueDate.getD task.dueDate
    tags := match body.tags with | some v => some v | none => task.tags }

/-- updateTask (taskController.js 251-299): findOne by id and user, 404 when
absent, otherwise apply the body fields and save. -/
def updateTask (db : List Task) (uid tid : Nat) (body : UpdateBody) (now : Int) :
    TaskResp × List Task :=
  match findOwnedTask db uid tid with
  | none => (TaskResp.notFound, db)
  | some task =>
    let updated := applyUpdateFields task body
    let result := saveTaskDoc db task updated now
    (TaskResp.okTask result.2, result.1)

/-- deleteTask (taskController.js 304-333): findOneAndDelete by id and user,
404 when absent, otherwise the first matching document is removed. -/
def deleteTask (db : List Task) (uid tid : Nat) : TaskResp × List Task :=
  match findOwnedTask db uid tid with
  | none => (TaskResp.notFound, db)
  | some _ =>
    (TaskResp.deleted, db.eraseP (fun t => t.id == tid && t.userId == uid))

/-- toggleCompletion instance method (models/Task.js 483-486): negate isDone
and save. -/
def toggleCompletion (db : List Task) (task : Task) (now : Int) : List Task × Task :=
  saveTaskDoc db task { task with isDone := !task.isDone } now

/-- toggleTask (taskController.js 338-370): findOne by id and user, 404 when
absent, otherwise toggleCompletion. -/
def toggleTask (db : List Task) (uid tid : Nat) (now : Int) : TaskResp × List Task :=
  match findOwnedTask db uid tid with
  | none => (TaskResp.notFound, db)
  | some task =>
    let result := toggleCompletion db task now
    (TaskResp.okTask result.2, result.1)

/-- addSubTask (taskController.js 375-415): reject a missing or blank title
with 400 before any lookup, then findOne by id and user, 404 when absent,
otherwise push the trimmed subtask title (addSubTask method, models/Task.js
489-492) and save. -/
def addSubTask (db : List Task) (uid tid : Nat) (title : Option String) (now : Int) :
    TaskResp × List Task :=
  match title with
  | none => (TaskResp.badRequest "Subtask title is required", db)
  | some s =>
    if jsTrim s == "" then (TaskResp.badRequest "Subtask title is required", db)
    else
      match findOwnedTask db uid tid with
      | none => (TaskResp.notFound, db)
      | some task =>
        let updated := { task with subTasks := task.subTasks ++ [⟨jsTrim s, false, now⟩] }
        let result := saveTaskDoc db task updated now
        (TaskResp.okTask result.2, result.1)

/-- Query condition dueDate: { $lt: now } of the findOverdue static
(models/Task.js 500-506): a query $lt against a Date matches only Date
values, so a null dueDate never matches. -/
def queryDueLt (dueDate : Option Int) (now : Int) : Bool :=
  match dueDate with
  | none => false
  | some d => decide (d < now)

/-- Ascending dueDate order of .sort({ dueDate: 1 }): BSON null sorts before
every date. -/
def dueAscB (a b : Task) : Bool :=
  match a.dueDate, b.dueDate with
  | none, _ => true
  | some _, none => false
  | some x, some y => decide (x ≤ y)

/-- findOverdue static (models/Task.js 500-506): the not-done tasks of the requesting user whose due date is strictly past, sorted by due date
ascending. -/
def findOverdue (db : List Task) (uid : Nat) (now : Int) : List Task :=
  (db.filter (fun t => t.userId == uid && t.isDone == false &&
    queryDueLt t.dueDate now)).insertionSort (fun a b => dueAscB a b = true)

/-- getOverdueTasks (taskController.js 441-455): the findOverdue list and
its length as count. -/
def getOverdueTasks (db : List Task) (uid : Nat) (now : Int) : List Task × Nat :=
  let tasks := findOverdue db uid now
  (tasks, tasks.length)

/-- Aggregation condition for overdue in the stats pipeline of getTasks
(taskController.js 125-139): isDone false, dueDate below now under the BSON
aggregation order where null is below every date, and dueDate not null. -/
def aggDueLtNow (dueDate : Option Int) (now : Int) : Bool :=
  match dueDate with
  | none => true
  | some d => decide (d < now)

/-- Overdue count of the stats aggregation of getTasks (taskController.js
117-142): match the user, then sum the conditional over the documents. -/
def statsAggOverdue (db : List Task) (uid : Nat) (now : Int) : Nat :=
  ((db.filter (fun t => t.userId == uid)).filter
    (fun t => t.isDone == false && aggDueLtNow t.dueDate now &&
      !(t.dueDate == none))).length

/-! Routing (routes/tasks.js, routes/auth.js) and the axios client
(services/api.js). -/

/-- Express route: method, path and the handler chain as registered. -/
structure Route where
  method : String
  path : String
  handlers : List String
deriving DecidableEq

/-- router.use(auth) of routes/tasks.js line 18: middleware applied to every
route of the task router. -/
def taskRouterGlobalMiddleware : List String := ["auth"]

/-- Routes of routes/tasks.js, in source order. -/
def taskRoutes : List Route := [
  ⟨"GET", "/", ["getTasks"]⟩,
  ⟨"GET", "/overdue", ["getOverdueTasks"]⟩,
  ⟨"GET", "/category/:category", ["getTasksByCategory"]⟩,
  ⟨"GET", "/:id", ["getTask"]⟩,
  ⟨"POST", "/", ["createTask"]⟩,
  ⟨"PATCH", "/:id", ["updateTask"]⟩,
  ⟨"PATCH", "/:id/toggle", ["toggleTask"]⟩,
  ⟨"POST", "/:id/subtasks", ["addSubTask"]⟩,
  ⟨"DELETE", "/:id", ["deleteTask"]⟩]

/-- Handler chain a request to a task route passes: the router-level
middleware, then the route handlers. -/
def effectiveTaskHandlers (r : Route) : List String :=
  taskRouterGlobalMiddleware ++ r.handlers

/-- Routes of routes/auth.js, in source order, with their per-route
middleware. -/
def authRoutes : List Route := [
  ⟨"POST", "/register", ["authLimiter", "register"]⟩,
  ⟨"POST", "/login", ["authLimiter", "login"]⟩,
  ⟨"GET", "/me", ["auth", "getProfile"]⟩,
  ⟨"PUT", "/profile", ["auth", "updateProfile"]⟩,
  ⟨"POST", "/verify", ["auth", "verifyToken"]⟩]

/-- Private routes of the auth router: profile read, profile update and
token verification. -/
def privateAuthPaths : List String := ["/me", "/profile", "/verify"]

/-- Modelled from the spec: the auth middleware itself lives in
middleware/auth.js, which is not among the source files; per the spec it
verifies the bearer token on protected routes and rejects an invalid or
expired token with 401. -/
def authMiddleware (tokenValid : Bool) : Option Nat :=
  if tokenValid then none else some 401

/-- Browser-side session: the token and user entries of localStorage and
the current location. -/
structure ClientSession where
  token : Option String
  user : Option String
  location : String
deriving DecidableEq

/-- Response interceptor error branch of services/api.js 39-69: on 401 the
token and user are removed from localStorage and the browser navigates to
/login; every other branch leaves the session alone and only toasts. The
result is the new session and the toast text. -/
def handleResponseError (st : ClientSession) (status : Option Nat)
    (code : Option String) (dataMessage : Option String) : ClientSession × String :=
  if status == some 401 then
    ({ token := none, user := none, location := "/login" },
      "Session expired. Please login again.")
  else if status == some 403 then (st, "Access denied")
  else if status == some 404 then (st, "Resource not found")
  else if (match status with | some n => decide (500 ≤ n) | none => false) then
    (st, "Server error. Please try again later.")
  else if code == some "ECONNABORTED" then
    (st, "Request timeout. Please check your connection.")
  else if code == some "ERR_NETWORK" || status == none then
    (st, "Cannot connect to server. Please ensure the backend is running on port 5000.")
  else (st, dataMessage.getD "An unexpected error occurred.")

/-! Specification-side predicate for the filtering claim, written from the
words of the claim: a conjunction of a status condition, a category
condition, a priority condition and a free-text search condition. It is
compared with the predicate extracted from the source. -/

/-- Claim wording for the status filter: under "pending" the task is not
done, under "completed" it is done, and "all", the empty string or an
absent status passes every task. -/
def specStatusOk (filters : Filters) (task : Task) : Bool :=
  if filters.status == some "pending" then !task.isDone
  else if filters.status == some "completed" then task.isDone
  else true

/-- Claim wording for the category filter: when set (non-empty) and not
"all", the category of the task equals it. -/
def specCategoryOk (filters : Filters) (task : Task) : Bool :=
  match filters.category with
  | none => true
  | some c => if !(c == "") && !(c == "all") then task.category == c else true

/-- Claim wording for the priority filter: when set (non-empty) and not
"all", the priority of the task equals it. -/
def specPriorityOk (filters : Filters) (task : Task) : Bool :=
  match filters.priority with
  | none => true
  | some p => if !(p == "") && !(p == "all") then task.priority == p else true

/-- Claim wording for the search filter: with a non-empty search string,
the lowercased term is a substring of the lowercased title, of the
lowercased description, or of the lowercased space-joined tags. -/
def specSearchOk (filters : Filters) (task : Task) : Bool :=
  match filters.search with
  | none => true
  | some s =>
    if s == "" then true
    else
      strIncludes (jsToLower (task.title.getD "")) (jsToLower s) ||
      strIncludes (jsToLower (task.description.getD "")) (jsToLower s) ||
      strIncludes (jsToLower (String.intercalate " " (task.tags.getD []))) (jsToLower s)

/-- Conjunction of the four claim-side filter conditions. -/
def claimMatches (filters : Filters) (task : Task) : Bool :=
  specStatusOk filters task && specCategoryOk filters task &&
  specPriorityOk filters task && specSearchOk filters task

/-- Status block of the source predicate equals the claim wording. -/
theorem statusCheck_eq_spec (filters : Filters) (task : Task) :
    statusCheck filters task = specStatusOk filters task := by
  unfold statusCheck specStatusOk
  cases hs : filters.status with
  | none => rfl
  | some s =>
    by_cases h1 : s = "pending"
    · subst h1; cases task.isDone <;> rfl
    · by_cases h2 : s = "completed"
      · subst h2; cases task.isDone <;> rfl
      · have e1 : (s == "pending") = false := beq_eq_false_iff_ne.mpr h1
        have e2 : (s == "completed") = false := beq_eq_false_iff_ne.mpr h2
        have e1o : (some s == some "pending") = false := by
          simp [h1]
        have e2o : (some s == some "completed") = false := by
          simp [h2]
        simp [e1, e2, e1o, e2o]

/-- Category block of the source predicate equals the claim wording. -/
theorem categoryCheck_eq_spec (filters : Filters) (task : Task) :
    categoryCheck filters task = specCategoryOk filters task := by
  unfold categoryCheck specCategoryOk
  cases hc : filters.category with
  | none => rfl
  | some c =>
    by_cases h : task.category = c
    · simp [h]
    · simp [truthy, h, beq_eq_false_iff_ne.mpr h,
        beq_eq_false_iff_ne.mpr (show c ≠ task.category from fun hh => h hh.symm)]

/-- Priority block of the source predicate equals the claim wording. -/
theorem priorityCheck_eq_spec (filters : Filters) (task : Task) :
    priorityCheck filters task = specPriorityOk filters task := by
  unfold priorityCheck specPriorityOk
  cases hp : filters.priority with
  | none => rfl
  | some p =>
    by_cases h : task.priority = p
    · simp [h]
    · simp [truthy, h, beq_eq_false_iff_ne.mpr h,
        beq_eq_false_iff_ne.mpr (show p ≠ task.priority from fun hh => h hh.symm)]

/-- Search block of the source predicate equals the claim wording. -/
theorem searchCheck_eq_spec (filters : Filters) (task : Task) :
    searchCheck filters task = specSearchOk filters task := by
  unfold searchCheck specSearchOk
  cases hs : filters.search with
  | none => rfl
  | some s =>
    by_cases h : s = ""
    · subst h; rfl
    · have e : (s == "") = false := beq_eq_false_iff_ne.mpr h
      simp only [e, Bool.false_eq_true, if_false]
      cases ha : strIncludes (jsToLower (task.title.getD "")) (jsToLower s) <;>
        cases hb : strIncludes (jsToLower (task.description.getD "")) (jsToLower s) <;>
        cases hc : strIncludes (jsToLower (String.intercalate " " (task.tags.getD [])))
          (jsToLower s) <;>
        simp [ha, hb, hc]

/-- Whole source predicate equals the claim-side conjunction. -/
theorem taskMatchesFilters_eq_claimMatches (filters : Filters) (task : Task) :
    taskMatchesFilters filters task = claimMatches filters task := by
  unfold taskMatchesFilters claimMatches
  rw [statusCheck_eq_spec, categoryCheck_eq_spec, priorityCheck_eq_spec,
    searchCheck_eq_spec]

/-- C1. filterTasks keeps exactly the tasks satisfying the conjunction of
the claimed status, category, priority and search predicates, in their
original relative order (the output is the filter of the input by the
claim-side predicate, hence a sublist of the input). -/
theorem filterTasks_matches_claim (tasks : List Task) (filters : Filters) :
    filterTasks tasks filters = tasks.filter (fun task => claimMatches filters task) ∧
    (filterTasks tasks filters).Sublist tasks := by
  constructor
  · exact List.filter_congr (fun x _ => taskMatchesFilters_eq_claimMatches filters x)
  · exact List.filter_sublist tasks

/-- C3. The priority rank used for comparison maps low to 1, medium to 2,
high to 3 and urgent to 4. -/
theorem getPriorityValue_rank_mapping :
    getPriorityValue "low" = 1 ∧ getPriorityValue "medium" = 2 ∧
    getPriorityValue "high" = 3 ∧ getPriorityValue "urgent" = 4 := by
  decide

/-- C9. Statistics invariants: completed and pending partition the total,
the total is the length of the list, overdue never exceeds pending, the
completion rate is at most 100 (it is a natural number, hence an integer at
least 0 by construction), and the empty list has completion rate 0. -/
theorem getTaskStats_invariants (tasks : List Task) (now : Int) :
    (getTaskStats tasks now).completed + (getTaskStats tasks now).pending
      = (getTaskStats tasks now).total ∧
    (getTaskStats tasks now).total = tasks.length ∧
    (getTaskStats tasks now).overdue ≤ (getTaskStats tasks now).pending ∧
    (getTaskStats tasks now).completionRate ≤ 100 ∧
    (getTaskStats [] now).completionRate = 0 := by
  have hc : (tasks.filter (fun task => task.isDone)).length ≤ tasks.length :=
    List.length_filter_le _ _
  refine ⟨?_, rfl, ?_, ?_, rfl⟩
  · show (tasks.filter (fun task => task.isDone)).length +
      (tasks.length - (tasks.filter (fun task => task.isDone)).length) = tasks.length
    omega
  · show (tasks.filter (fun task => !task.isDone && isOverdue task.dueDate now)).length
      ≤ tasks.length - (tasks.filter (fun task => task.isDone)).length
    have h1 : (tasks.filter
        (fun task => !task.isDone && isOverdue task.dueDate now)).length
        ≤ (tasks.filter (fun task => !task.isDone)).length := by
      rw [← List.countP_eq_length_filter, ← List.countP_eq_length_filter]
      exact List.countP_mono_left (fun x _ h => by
        cases hx : x.isDone <;> simp_all)
    have h2 : tasks.length = (tasks.filter (fun task => task.isDone)).length +
        (tasks.filter (fun task => !task.isDone)).length :=
      List.length_eq_length_filter_add _
    omega
  · show (if tasks.length > 0 then
        (200 * (tasks.filter (fun task => task.isDone)).length + tasks.length) /
          (2 * tasks.length)
      else 0) ≤ 100
    by_cases h : tasks.length > 0
    · rw [if_pos h]
      have h2t : 0 < 2 * tasks.length := by omega
      have hlt : (200 * (tasks.filter (fun task => task.isDone)).length + tasks.length) /
          (2 * tasks.length) < 101 :=
        (Nat.div_lt_iff_lt_mul h2t).mpr (by omega)
      omega
    · rw [if_neg h]
      omega

/-- C10 counterexample: "constructor" is none of the four known priorities,
yet priorities["constructor"] finds the constructor function inherited from
Object.prototype, a truthy value, so the or-default 2 does not fire and the
lookup does not return 2. -/
theorem getPriorityValue_prototype_counterexample :
    "constructor" ∉ ["low", "medium", "high", "urgent"] ∧
    getPriorityValueJs "constructor" ≠ PriorityValueResult.num 2 :=
  ⟨by decide, by decide⟩

/-- C10 as amended. Lookups do not fail on unknown input: an unknown
category falls back to the "other" entry of TASK_CATEGORIES and an unknown
priority to the "medium" entry of TASK_PRIORITIES; getPriorityValueJs
returns 2 for every unknown priority that is not a property name inherited
from Object.prototype, returns the truthy inherited value on the inherited
names, and away from the inherited names it agrees with the numeric
restriction getPriorityValue. -/
theorem unknown_lookups_default_amended (s : String) :
    (s ∉ ["work", "personal", "health", "finance", "shopping", "education", "other"] →
      getCategoryInfo s = ⟨"other", "Other", "📝", "gray"⟩) ∧
    (s ∉ ["low", "medium", "high", "urgent"] →
      getPriorityInfo s = ⟨"medium", "Medium", "yellow", "🟡"⟩) ∧
    (s ∉ ["low", "medium", "high", "urgent"] → s ∉ objectPrototypeProps →
      getPriorityValueJs s = PriorityValueResult.num 2) ∧
    (s ∈ objectPrototypeProps →
      getPriorityValueJs s = PriorityValueResult.inheritedProp) ∧
    (s ∉ objectPrototypeProps →
      getPriorityValueJs s = PriorityValueResult.num (getPriorityValue s)) := by
  refine ⟨?_, ?_, ?_, ?_, ?_⟩
  · intro h
    simp only [List.mem_cons, List.not_mem_nil, or_false, not_or] at h
    obtain ⟨h1, h2, h3, h4, h5, h6, h7⟩ := h
    unfold getCategoryInfo TASK_CATEGORIES
    simp [List.find?, beq_eq_false_iff_ne.mpr (Ne.symm h1),
      beq_eq_false_iff_ne.mpr (Ne.symm h2), beq_eq_false_iff_ne.mpr (Ne.symm h3),
      beq_eq_false_iff_ne.mpr (Ne.symm h4), beq_eq_false_iff_ne.mpr (Ne.symm h5),
      beq_eq_false_iff_ne.mpr (Ne.symm h6), beq_eq_false_iff_ne.mpr (Ne.symm h7)]
    rfl
  · intro h
    simp only [List.mem_cons, List.not_mem_nil, or_false, not_or] at h
    obtain ⟨h1, h2, h3, h4⟩ := h
    unfold getPriorityInfo TASK_PRIORITIES
    simp [List.find?, beq_eq_false_iff_ne.mpr (Ne.symm h1),
      beq_eq_false_iff_ne.mpr (Ne.symm h2), beq_eq_false_iff_ne.mpr (Ne.symm h3),
      beq_eq_false_iff_ne.mpr (Ne.symm h4)]
  · intro h hp
    simp only [List.mem_cons, List.not_mem_nil, or_false, not_or] at h
    obtain ⟨h1, h2, h3, h4⟩ := h
    simp [getPriorityValueJs, priorityLookupJs, h1, h2, h3, h4, hp]
  · intro hmem
    simp only [objectPrototypeProps, List.mem_cons, List.not_mem_nil,
      or_false] at hmem
    rcases hmem with rfl | rfl | rfl | rfl | rfl | rfl | rfl | rfl | rfl | rfl |
      rfl | rfl <;> decide
  · intro hp
    by_cases h1 : s = "low"
    · subst h1; decide
    · by_cases h2 : s = "medium"
      · subst h2; decide
      · by_cases h3 : s = "high"
        · subst h3; decide
        · by_cases h4 : s = "urgent"
          · subst h4; decide
          · simp [getPriorityValueJs, priorityLookupJs, getPriorityValue,
              priorityRank, h1, h2, h3, h4, hp]

/-- C10 witness: the fallbacks at the concrete unknown input "xyz" and the
prototype-chain behaviour at the concrete inherited name "toString". -/
theorem unknown_lookups_default_amended_witness :
    getCategoryInfo "xyz" = ⟨"other", "Other", "📝", "gray"⟩ ∧
    getPriorityInfo "xyz" = ⟨"medium", "Medium", "yellow", "🟡"⟩ ∧
    getPriorityValueJs "xyz" = PriorityValueResult.num 2 ∧
    getPriorityValueJs "toString" = PriorityValueResult.inheritedProp := by
  have h := unknown_lookups_default_amended "xyz"
  have h2 := unknown_lookups_default_amended "toString"
  exact ⟨h.1 (by decide), h.2.1 (by decide), h.2.2.1 (by decide) (by decide),
    h2.2.2.2.1 (by decide)⟩

/-- C6. The auth middleware is on every task route (router.use(auth)) and on
each private auth route; the spec-modelled middleware rejects an invalid
token with 401 and passes a valid one; and on any 401 response the client
interceptor clears the stored token and user and redirects to /login. -/
theorem auth_routing_and_401_client_reset :
    (taskRoutes.all (fun r => (effectiveTaskHandlers r).contains "auth") = true) ∧
    ((authRoutes.filter (fun r => privateAuthPaths.contains r.path)).all
      (fun r => r.handlers.contains "auth") = true) ∧
    authMiddleware false = some 401 ∧ authMiddleware true = none ∧
    (∀ (st : ClientSession) (code dataMessage : Option String),
      handleResponseError st (some 401) code dataMessage =
        ({ token := none, user := none, location := "/login" },
          "Session expired. Please login again.")) := by
  refine ⟨by decide, by decide, rfl, rfl, ?_⟩
  intro st code dataMessage
  rfl

/-- Totality of the ascending dueDate order of findOverdue. -/
theorem dueAscB_total (a b : Task) : dueAscB a b = true ∨ dueAscB b a = true := by
  cases ha : a.dueDate <;> cases hb : b.dueDate <;>
    simp [dueAscB, ha, hb] <;> omega

/-- Transitivity of the ascending dueDate order of findOverdue. -/
theorem dueAscB_trans (a b c : Task) (h1 : dueAscB a b = true)
    (h2 : dueAscB b c = true) : dueAscB a c = true := by
  cases ha : a.dueDate <;> cases hb : b.dueDate <;> cases hc : c.dueDate <;>
    simp_all [dueAscB] <;> omega

/-- Characterization of the query condition on dueDate. -/
theorem queryDueLt_iff (d : Option Int) (now : Int) :
    queryDueLt d now = true ↔ ∃ x, d = some x ∧ x < now := by
  cases d <;> simp [queryDueLt]

/-- The filter of the findOverdue query agrees pointwise with the overdue
condition of the stats aggregation restricted to the user. -/
theorem overdue_predicates_agree (uid : Nat) (now : Int) (t : Task) :
    (t.userId == uid && t.isDone == false && queryDueLt t.dueDate now) =
    ((t.isDone == false && aggDueLtNow t.dueDate now && !(t.dueDate == none)) &&
      (t.userId == uid)) := by
  cases ht : t.dueDate <;>
    cases hu : t.userId == uid <;>
    cases hdone : t.isDone <;>
    simp [queryDueLt, aggDueLtNow, ht, hu, hdone]

/-- C7. Overdue semantics: a task with no due date is never overdue, a due
date counts as overdue exactly when it is strictly before the current time,
the overdue query returns exactly the not-done tasks of the requesting user
with a strictly past due date, sorted by due date ascending, and its count
equals the overdue count of the stats aggregation at the same instant. -/
theorem overdue_query_spec (db : List Task) (uid : Nat) (now : Int) :
    isOverdue none now = false ∧
    (∀ d : Int, isOverdue (some d) now = true ↔ d < now) ∧
    (∀ t : Task, t ∈ findOverdue db uid now ↔
      t ∈ db ∧ t.userId = uid ∧ t.isDone = false ∧ ∃ d, t.dueDate = some d ∧ d < now) ∧
    (findOverdue db uid now).Sorted (fun a b => dueAscB a b = true) ∧
    (getOverdueTasks db uid now).2 = statsAggOverdue db uid now := by
  refine ⟨rfl, fun d => by simp [isOverdue], ?_, ?_, ?_⟩
  · intro t
    simp only [findOverdue, List.mem_insertionSort, List.mem_filter,
      Bool.and_eq_true, beq_iff_eq, queryDueLt_iff]
    tauto
  · haveI : IsTotal Task (fun a b => dueAscB a b = true) := ⟨dueAscB_total⟩
    haveI : IsTrans Task (fun a b => dueAscB a b = true) := ⟨dueAscB_trans⟩
    exact List.sorted_insertionSort _ _
  · show (findOverdue db uid now).length = statsAggOverdue db uid now
    unfold findOverdue statsAggOverdue
    rw [(List.perm_insertionSort _ _).length_eq]
    rw [List.filter_filter]
    exact congrArg List.length
      (List.filter_congr (fun t _ => overdue_predicates_agree uid now t))

/-- Concrete task for the clock-dependence counterexample: not done, due at
time 5. -/
def timeDependentTask : Task :=
  { id := 1, userId := 1, title := some "a", description := none,
    category := "work", priority := "low", isDone := false, dueDate := some 5,
    completedAt := none, tags := none, subTasks := [], createdAt := 0,
    updatedAt := 0 }

/-- C4 counterexample: getTaskStats does not depend on the task list alone;
reading the clock before and after the due date passes changes the overdue
count on the same list. -/
theorem getTaskStats_depends_on_clock :
    getTaskStats [timeDependentTask] 0 ≠ getTaskStats [timeDependentTask] 10 := by
  decide

/-- C4 as amended: the pipeline is pure given its arguments and the clock
reading. filterTasks returns a sublist of its input and sortTasks a
permutation of it; total, completed, pending and completionRate of
getTaskStats depend only on the task list; only the overdue field reads the
clock, and it equals the count of not-done tasks overdue at that instant. -/
theorem pipeline_pure_amended (tasks : List Task) (filters : Filters)
    (sortBy sortOrder : String) (now now2 : Int) :
    (getTaskStats tasks now).total = (getTaskStats tasks now2).total ∧
    (getTaskStats tasks now).completed = (getTaskStats tasks now2).completed ∧
    (getTaskStats tasks now).pending = (getTaskStats tasks now2).pending ∧
    (getTaskStats tasks now).completionRate = (getTaskStats tasks now2).completionRate ∧
    (getTaskStats tasks now).overdue =
      (tasks.filter (fun t => !t.isDone && isOverdue t.dueDate now)).length ∧
    (filterTasks tasks filters).Sublist tasks ∧
    (sortTasks tasks sortBy sortOrder).Perm tasks :=
  ⟨rfl, rfl, rfl, rfl, rfl, List.filter_sublist tasks, List.perm_insertionSort _ _⟩

/-- Strict comparison of JavaScript values is asymmetric. -/
theorem jsLt_asymm {x y : JsVal} (h : jsLt x y = true) : jsLt y x = false := by
  cases x <;> cases y <;> simp_all [jsLt]
  · omega
  · exact le_of_lt h

/-- The kind of the comparator key depends only on sortBy, not on the task:
every sortBy compares keys of one shape. -/
theorem keyOf_kind (sortBy : String) (t t' : Task) :
    (keyOf sortBy t).kind = (keyOf sortBy t').kind := by
  unfold keyOf
  split_ifs <;> rfl

/-- Totality of the non-strict value order on keys of equal kind. -/
theorem jsLe_total_kind {x y : JsVal} (h : x.kind = y.kind) :
    jsLe x y = true ∨ jsLe y x = true := by
  cases x <;> cases y <;> simp_all [JsVal.kind, jsLe, jsLt]
  · omega
  · exact le_total _ _

/-- Transitivity of the non-strict value order on keys of equal kind. -/
theorem jsLe_trans_kind {x y z : JsVal} (hxy : x.kind = y.kind)
    (hyz : y.kind = z.kind) (h1 : jsLe x y = true) (h2 : jsLe y z = true) :
    jsLe x z = true := by
  cases x <;> cases y <;> cases z <;> simp_all [JsVal.kind, jsLe, jsLt]
  · omega
  · exact le_trans h1 h2

/-- The comparator is nonpositive exactly when the pair is ordered by the
direction of sortOrder. -/
theorem taskCmp_le_iff (sortBy sortOrder : String) (a b : Task) :
    taskCmp sortBy sortOrder a b ≤ 0 ↔ sortedByKey sortBy sortOrder a b := by
  simp only [taskCmp, sortedByKey, jsLe]
  by_cases hso : sortOrder = "asc"
  · have hb : (sortOrder == "asc") = true := by simp [hso]
    rw [if_pos hso]
    cases h1 : jsLt (keyOf sortBy a) (keyOf sortBy b) <;>
      cases h2 : jsLt (keyOf sortBy b) (keyOf sortBy a)
    · simp [hb]
    · simp [hb]
    · simp [hb]
    · have := jsLt_asymm h1
      simp_all
  · have hb : (sortOrder == "asc") = false := by simp [hso]
    rw [if_neg hso]
    cases h1 : jsLt (keyOf sortBy a) (keyOf sortBy b) <;>
      cases h2 : jsLt (keyOf sortBy b) (keyOf sortBy a)
    · simp [hb]
    · simp [hb]
    · simp [hb]
    · have := jsLt_asymm h1
      simp_all

/-- Transitivity of the claimed sorted order. -/
theorem sortedByKey_trans (sortBy sortOrder : String) (a b c : Task)
    (h1 : sortedByKey sortBy sortOrder a b) (h2 : sortedByKey sortBy sortOrder b c) :
    sortedByKey sortBy sortOrder a c := by
  unfold sortedByKey at *
  by_cases hso : sortOrder = "asc"
  · rw [if_pos hso] at *
    exact jsLe_trans_kind (keyOf_kind _ a b) (keyOf_kind _ b c) h1 h2
  · rw [if_neg hso] at *
    exact jsLe_trans_kind (keyOf_kind _ c b) (keyOf_kind _ b a) h2 h1

/-- Totality of the claimed sorted order. -/
theorem sortedByKey_total (sortBy sortOrder : String) (a b : Task) :
    sortedByKey sortBy sortOrder a b ∨ sortedByKey sortBy sortOrder b a := by
  unfold sortedByKey
  by_cases hso : sortOrder = "asc"
  · rw [if_pos hso, if_pos hso]
    exact jsLe_total_kind (keyOf_kind _ a b)
  · rw [if_neg hso, if_neg hso]
    exact jsLe_total_kind (keyOf_kind _ b a)

/-- C2. sortTasks returns a permutation of the input sorted by the chosen
key in the chosen direction; the priority key is the numeric rank of
getPriorityValue, the title key is the lowercased title with empty default,
a missing due date takes the 9999-12-31 sentinel, and in ascending due-date
order every task dated before the sentinel sorts no later than any undated
task. -/
theorem sortTasks_sorted_perm (tasks : List Task) (sortBy sortOrder : String) :
    (sortTasks tasks sortBy sortOrder).Perm tasks ∧
    (sortTasks tasks sortBy sortOrder).Sorted (sortedByKey sortBy sortOrder) ∧
    (∀ t : Task, keyOf "priority" t = JsVal.num (getPriorityValue t.priority)) ∧
    (∀ t : Task, keyOf "title" t = JsVal.str (jsToLower (t.title.getD ""))) ∧
    (∀ t : Task, t.dueDate = none → keyOf "dueDate" t = JsVal.num farFutureMs) ∧
    (∀ a b : Task, (∃ d, a.dueDate = some d ∧ d < farFutureMs) → b.dueDate = none →
      sortedByKey "dueDate" "asc" a b) := by
  refine ⟨List.perm_insertionSort _ _, ?_, fun t => rfl, fun t => rfl, ?_, ?_⟩
  · haveI : IsTotal Task (fun a b => taskCmp sortBy sortOrder a b ≤ 0) := ⟨fun a b => by
      rcases sortedByKey_total sortBy sortOrder a b with h | h
      · exact Or.inl ((taskCmp_le_iff sortBy sortOrder a b).mpr h)
      · exact Or.inr ((taskCmp_le_iff sortBy sortOrder b a).mpr h)⟩
    haveI : IsTrans Task (fun a b => taskCmp sortBy sortOrder a b ≤ 0) := ⟨fun a b c h1 h2 =>
      (taskCmp_le_iff sortBy sortOrder a c).mpr
        (sortedByKey_trans sortBy sortOrder a b c
          ((taskCmp_le_iff sortBy sortOrder a b).mp h1)
          ((taskCmp_le_iff sortBy sortOrder b c).mp h2))⟩
    have hs := List.sorted_insertionSort
      (fun a b => taskCmp sortBy sortOrder a b ≤ 0) tasks
    exact hs.imp (fun h => (taskCmp_le_iff sortBy sortOrder _ _).mp h)
  · intro t ht
    simp [keyOf, ht]
  · rintro a b ⟨d, hd, hdlt⟩ hb
    simp only [sortedByKey, if_pos rfl, jsLe, keyOf, hd, hb]
    simp [jsLt]
    omega

/-- Example dated task for the C2 witness. -/
def exTaskDated : Task :=
  { id := 1, userId := 1, title := some "a", description := none,
    category := "work", priority := "low", isDone := false, dueDate := some 5,
    completedAt := none, tags := none, subTasks := [], createdAt := 0,
    updatedAt := 0 }

/-- Example undated task for the C2 witness. -/
def exTaskUndated : Task :=
  { id := 2, userId := 1, title := some "b", description := none,
    category := "work", priority := "low", isDone := false, dueDate := none,
    completedAt := none, tags := none, subTasks := [], createdAt := 0,
    updatedAt := 0 }

/-- C2 witness: at a concrete pair of tasks, the dated one sorts no later
than the undated one in ascending due-date order. -/
theorem sortTasks_sorted_perm_witness :
    sortedByKey "dueDate" "asc" exTaskDated exTaskUndated :=
  (sortTasks_sorted_perm [] "dueDate" "asc").2.2.2.2.2 exTaskDated exTaskUndated
    ⟨5, rfl, by decide⟩ rfl

/-- The pre-save hook only writes completedAt, never isDone. -/
theorem applyPreSaveHook_isDone (old new : Task) (now : Int) :
    (applyPreSaveHook old new now).isDone = new.isDone := by
  unfold applyPreSaveHook
  split_ifs <;> rfl

/-- The pre-save hook never changes the document id. -/
theorem applyPreSaveHook_id (old new : Task) (now : Int) :
    (applyPreSaveHook old new now).id = new.id := by
  unfold applyPreSaveHook
  split_ifs <;> rfl

/-- The pre-save hook never changes the owner. -/
theorem applyPreSaveHook_userId (old new : Task) (now : Int) :
    (applyPreSaveHook old new now).userId = new.userId := by
  unfold applyPreSaveHook
  split_ifs <;> rfl

/-- The saved document of a save is the document after the pre-save hook. -/
theorem saveTaskDoc_snd (db : List Task) (old new : Task) (now : Int) :
    (saveTaskDoc db old new now).2 = applyPreSaveHook old new now := rfl

/-- Toggling flips the isDone flag of the saved document. -/
theorem toggleCompletion_isDone (db : List Task) (task : Task) (now : Int) :
    (toggleCompletion db task now).2.isDone = !task.isDone := by
  show (applyPreSaveHook task { task with isDone := !task.isDone } now).isDone
    = !task.isDone
  rw [applyPreSaveHook_isDone]

/-- C8. Toggling negates isDone, so toggling twice restores it; a save that
modifies isDone to false clears completedAt; a save that completes a task
with no completedAt stamps the current time; and every save preserves the
invariant that a not-done task has completedAt null, for any update that
does not itself write completedAt (no controller path writes it). -/
theorem toggle_and_completedAt_spec (db db2 : List Task) (task : Task)
    (now now2 : Int) :
    ((toggleCompletion db task now).2.isDone = !task.isDone) ∧
    ((toggleCompletion db2 (toggleCompletion db task now).2 now2).2.isDone
      = task.isDone) ∧
    (∀ old new : Task, new.isDone = false → old.isDone = true →
      (applyPreSaveHook old new now).completedAt = none) ∧
    (∀ old new : Task, new.isDone = true → old.isDone = false →
      new.completedAt = none →
      (applyPreSaveHook old new now).completedAt = some now) ∧
    (∀ old new : Task, new.completedAt = old.completedAt →
      (old.isDone = false → old.completedAt = none) →
      (applyPreSaveHook old new now).isDone = false →
      (applyPreSaveHook old new now).completedAt = none) := by
  refine ⟨toggleCompletion_isDone db task now, ?_, ?_, ?_, ?_⟩
  · rw [toggleCompletion_isDone, toggleCompletion_isDone, Bool.not_not]
  · intro old new hnew hold
    simp [applyPreSaveHook, hnew, hold]
  · intro old new hnew hold hca
    simp [applyPreSaveHook, hnew, hold, hca]
  · intro old new hca hinv h3
    rw [applyPreSaveHook_isDone] at h3
    unfold applyPreSaveHook
    by_cases hmod : new.isDone = old.isDone
    · rw [if_neg (by simp [hmod])]
      rw [hca]
      exact hinv (by rw [← hmod]; exact h3)
    · rw [if_pos (by simp [hmod])]
      simp [h3]

/-- C8 witness: completing the concrete not-done task with a clear
completedAt stamps the clock value 5. -/
theorem toggle_and_completedAt_spec_witness :
    (applyPreSaveHook exTaskDated { exTaskDated with isDone := true } 5).completedAt
      = some 5 :=
  (toggle_and_completedAt_spec [] [] exTaskDated 5 0).2.2.2.1 exTaskDated
    { exTaskDated with isDone := true } rfl rfl rfl

/-- The per-user lookup finds nothing exactly when no stored task carries
both the requested id and the requesting user. -/
theorem findOwnedTask_none_iff (db : List Task) (uid tid : Nat) :
    findOwnedTask db uid tid = none ↔
      ∀ t ∈ db, ¬(t.id = tid ∧ t.userId = uid) := by
  simp [findOwnedTask, List.find?_eq_none]

/-- A successful per-user lookup returns a stored task with the requested
id, owned by the requesting user. -/
theorem findOwnedTask_some (db : List Task) (uid tid : Nat) (t : Task)
    (h : findOwnedTask db uid tid = some t) :
    t ∈ db ∧ t.id = tid ∧ t.userId = uid := by
  refine ⟨List.mem_of_find?_eq_some h, ?_⟩
  have := List.find?_some h
  simpa using this

/-- Writing a saved document owned by the requesting user back into the
collection leaves the documents of every other user in place, because MongoDB
ids are unique. -/
theorem save_preserves_other_users {db : List Task} {uid : Nat}
    {found saved : Task} (huniq : (db.map Task.id).Nodup) (hfound : found ∈ db)
    (hfuid : found.userId = uid) (hsid : saved.id = found.id) :
    ∀ t : Task, t ∈ db → t.userId ≠ uid →
      t ∈ db.map (fun u => if u.id == saved.id then saved else u) := by
  intro t htdb htuid
  have hne : t.id ≠ saved.id := by
    intro he
    have : t = found :=
      List.inj_on_of_nodup_map huniq htdb hfound (by rw [he, hsid])
    exact htuid (this ▸ hfuid)
  exact List.mem_map.mpr ⟨t, htdb, by rw [if_neg (by simp [hne])]⟩

/-- C5 (amended). Task operations are scoped per user: getTask, updateTask,
deleteTask and toggleTask respond 404 Task-not-found exactly when no stored
task has the requested id and the requesting user; addSubTask does so too
whenever the submitted title is present and not blank, and otherwise
responds 400 before any lookup; every task returned belongs to the
requester, and no operation modifies or deletes a task of another user. -/
theorem taskOps_user_scoped (db : List Task) (uid tid : Nat)
    (body : UpdateBody) (title : Option String) (now : Int)
    (huniq : (db.map Task.id).Nodup) :
    (getTask db uid tid = TaskResp.notFound ↔
      ∀ t ∈ db, ¬(t.id = tid ∧ t.userId = uid)) ∧
    ((updateTask db uid tid body now).1 = TaskResp.notFound ↔
      ∀ t ∈ db, ¬(t.id = tid ∧ t.userId = uid)) ∧
    ((deleteTask db uid tid).1 = TaskResp.notFound ↔
      ∀ t ∈ db, ¬(t.id = tid ∧ t.userId = uid)) ∧
    ((toggleTask db uid tid now).1 = TaskResp.notFound ↔
      ∀ t ∈ db, ¬(t.id = tid ∧ t.userId = uid)) ∧
    (∀ s, title = some s → jsTrim s ≠ "" →
      ((addSubTask db uid tid title now).1 = TaskResp.notFound ↔
        ∀ t ∈ db, ¬(t.id = tid ∧ t.userId = uid))) ∧
    ((title = none ∨ ∃ s, title = some s ∧ jsTrim s = "") →
      (addSubTask db uid tid title now).1 =
        TaskResp.badRequest "Subtask title is required") ∧
    (∀ t, getTask db uid tid = TaskResp.okTask t → t.userId = uid ∧ t.id = tid) ∧
    (∀ t, (updateTask db uid tid body now).1 = TaskResp.okTask t → t.userId = uid) ∧
    (∀ t, (toggleTask db uid tid now).1 = TaskResp.okTask t → t.userId = uid) ∧
    (∀ t, (addSubTask db uid tid title now).1 = TaskResp.okTask t → t.userId = uid) ∧
    (∀ t ∈ db, t.userId ≠ uid →
      t ∈ (updateTask db uid tid body now).2 ∧
      t ∈ (toggleTask db uid tid now).2 ∧
      t ∈ (addSubTask db uid tid title now).2 ∧
      t ∈ (deleteTask db uid tid).2) := by
  cases hf : findOwnedTask db uid tid with
  | none =>
    have hmatch : ∀ t ∈ db, ¬(t.id = tid ∧ t.userId = uid) :=
      (findOwnedTask_none_iff db uid tid).mp hf
    refine ⟨iff_of_true (by simp [getTask, hf]) hmatch,
      iff_of_true (by simp [updateTask, hf]) hmatch,
      iff_of_true (by simp [deleteTask, hf]) hmatch,
      iff_of_true (by simp [toggleTask, hf]) hmatch,
      ?_, ?_, ?_, ?_, ?_, ?_, ?_⟩
    · intro s hs hblank
      refine iff_of_true ?_ hmatch
      simp [addSubTask, hs, beq_eq_false_iff_ne.mpr hblank, hf]
    · rintro (hnone | ⟨s, hs, hblank⟩)
      · simp [addSubTask, hnone]
      · simp [addSubTask, hs, hblank]
    · intro t ht
      simp [getTask, hf] at ht
    · intro t ht
      simp [updateTask, hf] at ht
    · intro t ht
      simp [toggleTask, hf] at ht
    · intro t ht
      cases htitle : title with
      | none => simp [addSubTask, htitle] at ht
      | some s =>
        by_cases hblank : jsTrim s = ""
        · simp [addSubTask, htitle, hblank] at ht
        · simp [addSubTask, htitle, beq_eq_false_iff_ne.mpr hblank, hf] at ht
    · intro t htdb htuid
      refine ⟨?_, ?_, ?_, ?_⟩
      · simpa [updateTask, hf] using htdb
      · simpa [toggleTask, hf] using htdb
      · cases htitle : title with
        | none => simpa [addSubTask, htitle] using htdb
        | some s =>
          by_cases hblank : jsTrim s = ""
          · simpa [addSubTask, htitle, hblank] using htdb
          · simpa [addSubTask, htitle, beq_eq_false_iff_ne.mpr hblank, hf] using htdb
      · simpa [deleteTask, hf] using htdb
  | some task =>
    obtain ⟨htmem, htid, htuid⟩ := findOwnedTask_some db uid tid task hf
    have hnotall : ¬(∀ t ∈ db, ¬(t.id = tid ∧ t.userId = uid)) :=
      fun hall => hall task htmem ⟨htid, htuid⟩
    refine ⟨iff_of_false (by simp [getTask, hf]) hnotall,
      iff_of_false (by simp [updateTask, hf]) hnotall,
      iff_of_false (by simp [deleteTask, hf]) hnotall,
      iff_of_false (by simp [toggleTask, hf]) hnotall,
      ?_, ?_, ?_, ?_, ?_, ?_, ?_⟩
    · intro s hs hblank
      refine iff_of_false ?_ hnotall
      simp [addSubTask, hs, beq_eq_false_iff_ne.mpr hblank, hf]
    · rintro (hnone | ⟨s, hs, hblank⟩)
      · simp [addSubTask, hnone]
      · simp [addSubTask, hs, hblank]
    · intro t ht
      simp only [getTask, hf, TaskResp.okTask.injEq] at ht
      exact ht ▸ ⟨htuid, htid⟩
    · intro t ht
      simp only [updateTask, hf, TaskResp.okTask.injEq] at ht
      rw [← ht, saveTaskDoc_snd, applyPreSaveHook_userId]
      exact htuid
    · intro t ht
      simp only [toggleTask, toggleCompletion, hf, TaskResp.okTask.injEq] at ht
      rw [← ht, saveTaskDoc_snd, applyPreSaveHook_userId]
      exact htuid
    · intro t ht
      cases htitle : title with
      | none => simp [addSubTask, htitle] at ht
      | some s =>
        by_cases hblank : jsTrim s = ""
        · simp [addSubTask, htitle, hblank] at ht
        · simp only [addSubTask, htitle, beq_eq_false_iff_ne.mpr hblank, hf,
            Bool.false_eq_true, if_false, TaskResp.okTask.injEq] at ht
          rw [← ht, saveTaskDoc_snd, applyPreSaveHook_userId]
          exact htuid
    · intro t htdb htother
      refine ⟨?_, ?_, ?_, ?_⟩
      · show t ∈ (updateTask db uid tid body now).2
        simp only [updateTask, hf]
        exact save_preserves_other_users huniq htmem htuid
          (by rw [applyPreSaveHook_id]; rfl) t htdb htother
      · show t ∈ (toggleTask db uid tid now).2
        simp only [toggleTask, toggleCompletion, hf]
        exact save_preserves_other_users huniq htmem htuid
          (by rw [applyPreSaveHook_id]) t htdb htother
      · cases htitle : title with
        | none => simpa [addSubTask, htitle] using htdb
        | some s =>
          by_cases hblank : jsTrim s = ""
          · simpa [addSubTask, htitle, hblank] using htdb
          · simp only [addSubTask, htitle, beq_eq_false_iff_ne.mpr hblank, hf]
            exact save_preserves_other_users huniq htmem htuid
              (by rw [applyPreSaveHook_id]) t htdb htother
      · show t ∈ (deleteTask db uid tid).2
        simp only [deleteTask, hf]
        refine (List.mem_eraseP_of_neg ?_).mpr htdb
        simp [htother]

/-- Body with no fields set, for the C5 witness. -/
def emptyBody : UpdateBody := ⟨none, none, none, none, none, none, none⟩

/-- C5 witness: the 404 characterization of getTask at a concrete one-task
collection. -/
theorem taskOps_user_scoped_witness :
    getTask [exTaskDated] 1 1 = TaskResp.notFound ↔
      ∀ t ∈ [exTaskDated], ¬(t.id = 1 ∧ t.userId = 1) :=
  (taskOps_user_scoped [exTaskDated] 1 1 emptyBody (some "x") 0 (by decide)).1

/-- C5 counterexample: with a blank subtask title, addSubTask responds 400,
not 404, although no stored task matches: on the empty collection the
claimed 404-exactly-when-no-match equivalence fails for addSubTask. -/
theorem addSubTask_blank_counterexample :
    (∀ t ∈ ([] : List Task), ¬(t.id = 1 ∧ t.userId = 7)) ∧
    (addSubTask [] 7 1 (some " ") 0).1 ≠ TaskResp.notFound := by
  exact ⟨by simp, by decide⟩

end Taskify
